import Mathlib

/-!
Verification of the VOLTTRON platform messaging socket codec
(`volttron/platform/messaging/socket.py`).

The module frames an application message (topic, headers, body parts) as a
sequence of transport frames on a ØMQ socket, and decodes such sequences back.
We shallowly embed the four codec methods `send_message`, `send_message_ex`,
`recv_message` and `recv_message_ex` over an explicit wire model: a frame is an
opaque byte sequence together with its "more frames follow" flag, the sender
produces a list of frames (or stops with a Python-level error), and the
receiver consumes a list of frames.

External collaborators that the source file imports but that are not part of
the sources under verification - the `Headers` mapping abstraction, the
`jsonapi` structured-text (JSON) codec, and the ØMQ string/multipart transport
primitives - are modelled from the specification's interface contracts; each
such definition is marked in its doc comment.

Text is represented as a list of Unicode code points, bytes as a list of
naturals below 256.
-/

/-- Unicode text, as a list of code points. -/
abbrev UText := List Nat

/-- A byte string, as a list of naturals (each below 256 on the real wire). -/
abbrev PyBytes := List Nat

/-- Is `c` a Unicode scalar value (a code point encodable in UTF-8)? -/
def validCp (c : Nat) : Bool := decide (c < 55296) || (decide (57344 ≤ c) && decide (c < 1114112))

/-- UTF-8 encoding of one code point (1 to 4 bytes). -/
def utf8EncodeChar (c : Nat) : PyBytes :=
  if c < 128 then [c]
  else if c < 2048 then [192 + c / 64, 128 + c % 64]
  else if c < 65536 then [224 + c / 4096, 128 + c / 64 % 64, 128 + c % 64]
  else [240 + c / 262144, 128 + c / 4096 % 64, 128 + c / 64 % 64, 128 + c % 64]

/-- UTF-8 encoding of a text. -/
def utf8Encode : UText → PyBytes
  | [] => []
  | c :: cs => utf8EncodeChar c ++ utf8Encode cs

/-- Is `b` a UTF-8 continuation byte? -/
def isCont (b : Nat) : Bool := decide (128 ≤ b) && decide (b < 192)

mutual
/-- UTF-8 decoding; `none` on any malformed byte sequence (stray continuation
bytes, truncated sequences, overlong forms, surrogates, out-of-range values),
mirroring a strict UTF-8 decoder as used by Python's `str` decoding. The
two-, three- and four-byte sequence forms are handled by the helpers below. -/
def utf8Decode : PyBytes → Option UText
  | [] => some []
  | b :: bs =>
    if b < 128 then (utf8Decode bs).map (b :: ·)
    else if b < 194 then none
    else if b < 224 then utf8Decode2 b bs
    else if b < 240 then utf8Decode3 b bs
    else if b < 245 then utf8Decode4 b bs
    else none

/-- Decoding of a two-byte UTF-8 sequence whose lead byte is `b`. -/
def utf8Decode2 : Nat → PyBytes → Option UText
  | b, b1 :: bs1 =>
    if isCont b1 then (utf8Decode bs1).map (((b - 192) * 64 + (b1 - 128)) :: ·)
    else none
  | _, _ => none

/-- Decoding of a three-byte UTF-8 sequence whose lead byte is `b`, rejecting
overlong forms and surrogate code points. -/
def utf8Decode3 : Nat → PyBytes → Option UText
  | b, b1 :: b2 :: bs2 =>
    if isCont b1 && isCont b2 then
      let c := (b - 224) * 4096 + (b1 - 128) * 64 + (b2 - 128)
      if 2048 ≤ c && (c < 55296 || 57344 ≤ c) then (utf8Decode bs2).map (c :: ·)
      else none
    else none
  | _, _ => none

/-- Decoding of a four-byte UTF-8 sequence whose lead byte is `b`, rejecting
overlong and out-of-range forms. -/
def utf8Decode4 : Nat → PyBytes → Option UText
  | b, b1 :: b2 :: b3 :: bs3 =>
    if isCont b1 && isCont b2 && isCont b3 then
      let c := (b - 240) * 262144 + (b1 - 128) * 4096 + (b2 - 128) * 64 + (b3 - 128)
      if 65536 ≤ c && c < 1114112 then (utf8Decode bs3).map (c :: ·)
      else none
    else none
  | _, _ => none
end

/-- A Python value as it appears in this module: JSON-representable values
(null, booleans, integers, strings, sequences, string-keyed mappings) plus
opaque byte strings, which are valid message parts but are not
JSON-serializable. -/
inductive PyObj where
  | null
  | boolean (b : Bool)
  | num (n : Int)
  | str (s : UText)
  | arr (xs : List PyObj)
  | obj (kvs : List (UText × PyObj))
  | pybytes (b : PyBytes)

/-- Unary run of `n` marker code points followed by a terminator; used as the
self-delimiting count prefix of the modelled structured-text encoding. -/
def cntText (n : Nat) : UText := List.replicate n 35 ++ [59]

mutual
/-- Modelled from the spec: the structured text codec (the repository's
`jsonapi` module, not present under src/) must "round-trip mappings, ordered
sequences, strings, numbers, booleans, null" through UTF-8 text. We realise it
as a tagged, count-prefixed text encoding; the byte-exact JSON grammar is out
of the specification's scope. `pybytes` values are given an encoding here but
are rejected by `jsonDumps` below, as `json.dumps` rejects byte strings. -/
def encVal : PyObj → UText
  | .null => [110]
  | .boolean true => [116]
  | .boolean false => [102]
  | .num n => 105 :: (if 0 ≤ n then 43 :: cntText n.toNat else 45 :: cntText (-n).toNat)
  | .str s => 115 :: (cntText s.length ++ s)
  | .arr xs => 97 :: encItems xs
  | .obj kvs => 111 :: encProps kvs
  | .pybytes b => 98 :: (cntText b.length ++ b)

/-- Encoding of the elements of a sequence, with a terminator. -/
def encItems : List PyObj → UText
  | [] => [93]
  | x :: xs => encVal x ++ encItems xs

/-- Encoding of the key/value pairs of a mapping, with a terminator. -/
def encProps : List (UText × PyObj) → UText
  | [] => [93]
  | (k, v) :: kvs => (115 :: (cntText k.length ++ k)) ++ encVal v ++ encProps kvs
end

mutual
/-- Is the value JSON-serializable (free of raw byte strings)?  Mirrors the
check `json.dumps` performs: serialization fails exactly when a
non-serializable object occurs anywhere in the value. -/
def serializableB : PyObj → Bool
  | .pybytes _ => false
  | .arr xs => serializableListB xs
  | .obj kvs => serializableKvsB kvs
  | _ => true

/-- `serializableB` on every element of a sequence. -/
def serializableListB : List PyObj → Bool
  | [] => true
  | x :: xs => serializableB x && serializableListB xs

/-- `serializableB` on every value of a mapping. -/
def serializableKvsB : List (UText × PyObj) → Bool
  | [] => true
  | (_, v) :: kvs => serializableB v && serializableKvsB kvs
end

mutual
/-- Does the value denote a real Python value: every string (and key) is made
of Unicode scalar values, and no raw byte string occurs where a JSON value is
expected? Used as the well-formedness hypothesis of round-trip theorems. -/
def pvalidB : PyObj → Bool
  | .null => true
  | .boolean _ => true
  | .num _ => true
  | .str s => s.all validCp
  | .arr xs => pvalidListB xs
  | .obj kvs => pvalidKvsB kvs
  | .pybytes _ => false

/-- `pvalidB` on every element of a sequence. -/
def pvalidListB : List PyObj → Bool
  | [] => true
  | x :: xs => pvalidB x && pvalidListB xs

/-- `pvalidB` on every value, and `validCp` on every key, of a mapping. -/
def pvalidKvsB : List (UText × PyObj) → Bool
  | [] => true
  | (k, v) :: kvs => k.all validCp && pvalidB v && pvalidKvsB kvs
end

/-- Parse a count prefix written by `cntText`. -/
def parseCnt : UText → Option (Nat × UText)
  | 35 :: rest => (parseCnt rest).map (fun p => (p.1 + 1, p.2))
  | 59 :: rest => some (0, rest)
  | _ => none

/-- Take exactly `n` code points off the front of a text. -/
def takeN : Nat → UText → Option (UText × UText)
  | 0, t => some ([], t)
  | _ + 1, [] => none
  | n + 1, c :: t => (takeN n t).map (fun p => (c :: p.1, p.2))

mutual
/-- Modelled from the spec: parser half of the structured text codec, with a
step budget `fuel`; never produces a `pybytes` value, as JSON has no byte
string representation. -/
def parseVal : Nat → UText → Option (PyObj × UText)
  | 0, _ => none
  | _ + 1, 110 :: r => some (.null, r)
  | _ + 1, 116 :: r => some (.boolean true, r)
  | _ + 1, 102 :: r => some (.boolean false, r)
  | _ + 1, 105 :: 43 :: r => (parseCnt r).map (fun p => (.num (Int.ofNat p.1), p.2))
  | _ + 1, 105 :: 45 :: r => (parseCnt r).map (fun p => (.num (-(Int.ofNat p.1)), p.2))
  | _ + 1, 115 :: r => do
      let (n, r1) ← parseCnt r
      let (s, r2) ← takeN n r1
      some (.str s, r2)
  | fuel + 1, 97 :: r => (parseItems fuel r).map (fun p => (.arr p.1, p.2))
  | fuel + 1, 111 :: r => (parseProps fuel r).map (fun p => (.obj p.1, p.2))
  | _ + 1, _ => none

/-- Parse sequence elements up to the terminator. -/
def parseItems : Nat → UText → Option (List PyObj × UText)
  | 0, _ => none
  | _ + 1, 93 :: r => some ([], r)
  | fuel + 1, t => do
      let (v, r1) ← parseVal fuel t
      let (xs, r2) ← parseItems fuel r1
      some (v :: xs, r2)

/-- Parse mapping entries up to the terminator. -/
def parseProps : Nat → UText → Option (List (UText × PyObj) × UText)
  | 0, _ => none
  | _ + 1, 93 :: r => some ([], r)
  | fuel + 1, 115 :: r => do
      let (n, r1) ← parseCnt r
      let (k, r2) ← takeN n r1
      let (v, r3) ← parseVal fuel r2
      let (kvs, r4) ← parseProps fuel r3
      some ((k, v) :: kvs, r4)
  | _ + 1, _ => none
end

/-- Modelled from the spec: `jsonapi.dumps` - serialize a value to structured
text, failing (with Python's `TypeError`) exactly on non-serializable values. -/
def jsonDumps (v : PyObj) : Option UText :=
  if serializableB v then some (encVal v) else none

/-- Modelled from the spec: `jsonapi.loads` - parse structured text, requiring
the whole text to be consumed; `none` models the decode error raised on
malformed input. -/
def jsonLoads (t : UText) : Option PyObj :=
  match parseVal t.length t with
  | some (v, []) => some v
  | _ => none

/-- Lower-case an ASCII code point; the canonicalizing key comparison of the
headers mapping. -/
def lowerCp (c : Nat) : Nat := if 65 ≤ c ∧ c ≤ 90 then c + 32 else c

/-- Canonical form of a header key for case-insensitive comparison. -/
def ciKey (t : UText) : UText := t.map lowerCp

/-- Modelled from the spec: the `Headers` abstraction (the repository's
`.headers` module, not present under src/) - "an ordered mapping from
case-preserved string keys to values", with "case-insensitive key lookup,
default-valued access (returning an empty ordered sequence for missing keys),
and construction from a mapping". -/
structure Headers where
  dict : List (UText × PyObj)

/-- First entry whose key matches case-insensitively. -/
def Headers.find? (h : Headers) (k : UText) : Option PyObj :=
  (h.dict.find? (fun kv => ciKey kv.1 == ciKey k)).map (fun kv => kv.2)

/-- Case-insensitive lookup, defaulting to an empty ordered sequence for a
missing key, as the spec requires of the headers abstraction. -/
def Headers.get (h : Headers) (k : UText) : PyObj :=
  (h.find? k).getD (.arr [])

/-- Replace the value at the first case-insensitively matching key, preserving
the stored key spelling and position; append the entry if the key is absent. -/
def setKv : List (UText × PyObj) → UText → PyObj → List (UText × PyObj)
  | [], k, v => [(k, v)]
  | kv :: rest, k, v =>
    if ciKey kv.1 == ciKey k then (kv.1, v) :: rest else kv :: setKv rest k v

/-- Item assignment on a headers mapping. -/
def Headers.set (h : Headers) (k : UText) (v : PyObj) : Headers :=
  ⟨setKv h.dict k v⟩

/-- The Python-level errors this module can raise: `TypeError`
(`dataTypeError` here), `ValueError` from tuple unpacking, a decode error
(`UnicodeDecodeError` or the JSON decode error, both `ValueError` subclasses in
Python), and the transport's error for a receive with no frame available. -/
inductive PyError where
  | dataTypeError
  | valueError
  | decodeError
  | again
deriving Repr, DecidableEq

/-- Construction of a `Headers` value from a decoded structured-text value, as
done by `Headers(headers)` in `recv_message`; anything but a mapping is a
`TypeError`, since the abstraction is constructed from a mapping. -/
def headersOfJson : PyObj → Except PyError Headers :=
  fun v =>
    match v with
    | .obj kvs => .ok ⟨kvs⟩
    | _ => .error .dataTypeError

/-- One transport frame: opaque bytes plus the "more frames follow" flag. -/
structure Frame where
  data : PyBytes
  more : Bool
deriving Repr

/-- The outcome of a send call: the frames actually written to the wire, in
order, and the error raised (if any) - an error may follow a partial write. -/
structure SendOut where
  frames : List Frame
  error : Option PyError
deriving Repr

/-- The `zmq.SNDMORE` flag bit. -/
def SNDMORE : Nat := 2

/-- Does a flags word carry the `SNDMORE` bit? This is the "more" mark the
transport attaches to a frame sent with those flags. -/
def hasMore (flags : Nat) : Bool := flags.testBit 1

/-- The code point sequence of the string `Content-Type`. -/
def contentTypeKey : UText := [67, 111, 110, 116, 101, 110, 116, 45, 84, 121, 112, 101]

/-- The code point sequence of the string `flags`. -/
def flagsKey : UText := [102, 108, 97, 103, 115]

/-- Python's `kwargs.pop(key, default)` on a keyword-argument mapping: the
value found (or the default) and the mapping with that entry removed. -/
def popKw : List (UText × Nat) → UText → Nat → Nat × List (UText × Nat)
  | [], _, dflt => (dflt, [])
  | kv :: rest, k, dflt =>
    if kv.1 == k then (kv.2, rest)
    else
      let p := popKw rest k dflt
      (p.1, kv :: p.2)

/-- Is the object a Python byte string (acceptable as a transport frame)? -/
def isPyBytes : PyObj → Bool
  | .pybytes _ => true
  | _ => false

/-- The byte content of a byte-string object. -/
def pyBytesData : PyObj → PyBytes
  | .pybytes b => b
  | _ => []

/-- Frames written by the transport's multipart send: every part but the last
is sent with `flags | SNDMORE`, the last with the caller's flags. -/
def sendMpFrames : List PyObj → Nat → List Frame
  | [], _ => []
  | [p], flags => [⟨pyBytesData p, hasMore flags⟩]
  | p :: ps, flags => ⟨pyBytesData p, hasMore (flags ||| SNDMORE)⟩ :: sendMpFrames ps flags

/-- Modelled external transport primitive `send_multipart` (pyzmq): validates
that every part is a byte string before any frame is written (raising
`TypeError` otherwise), then sends the parts as consecutive frames. -/
def sendMultipart (parts : List PyObj) (flags : Nat) : Except PyError (List Frame) :=
  if parts.all isPyBytes then .ok (sendMpFrames parts flags) else .error .dataTypeError

/-- Translation of `Socket.send_message(topic, headers, *msg_parts, **kwargs)`:
pop the `flags` keyword, reject any remaining keyword with `TypeError`,
normalize the headers mapping, send the topic as UTF-8 marked more, send the
JSON headers marked more exactly when parts follow, then send the parts as a
multipart tail. -/
def send_message (topic : UText) (headers : List (UText × PyObj)) (msg_parts : List PyObj)
    (kwargs : List (UText × Nat)) : SendOut :=
  let fk := popKw kwargs flagsKey 0
  let flags := fk.1
  match fk.2 with
  | _ :: _ => ⟨[], some .dataTypeError⟩
  | [] =>
    let hdrs : Headers := if headers.isEmpty then ⟨[]⟩ else ⟨headers⟩
    let topicFrame : Frame := ⟨utf8Encode topic, hasMore (flags ||| SNDMORE)⟩
    match jsonDumps (.obj hdrs.dict) with
    | none => ⟨[topicFrame], some .dataTypeError⟩
    | some t =>
      let hdrFrame : Frame :=
        ⟨utf8Encode t, hasMore (flags ||| (if msg_parts.isEmpty then 0 else SNDMORE))⟩
      if msg_parts.isEmpty then ⟨[topicFrame, hdrFrame], none⟩
      else
        match sendMultipart msg_parts flags with
        | .error e => ⟨[topicFrame, hdrFrame], some e⟩
        | .ok fs => ⟨topicFrame :: hdrFrame :: fs, none⟩

/-- Python's `list(zip(*ts))`: the transpose of `ts` truncated to the length
of its shortest row (`zip()` of no iterables being empty). Its length. -/
def zipStarLen : List (List PyObj) → Nat
  | [] => 0
  | [t] => t.length
  | t :: ts => min t.length (zipStarLen ts)

/-- Python's `list(zip(*ts))` itself: row `i` collects element `i` of every
tuple, for `i` below the shortest tuple length. -/
def zipStar (ts : List (List PyObj)) : List (List PyObj) :=
  (List.range (zipStarLen ts)).map (fun i => ts.map (fun t => t.getD i .null))

/-- Translation of `Socket.send_message_ex(topic, headers, *msg_tuples,
**kwargs)`: normalize headers, unpack `list(zip(*msg_tuples))` into the
content-type row and the parts row (a `ValueError` if that list does not have
exactly two rows), store the content-type row under `Content-Type`, and
delegate to `send_message`. -/
def send_message_ex (topic : UText) (headers : List (UText × PyObj))
    (msg_tuples : List (List PyObj)) (kwargs : List (UText × Nat)) : SendOut :=
  let hdrs : Headers := if headers.isEmpty then ⟨[]⟩ else ⟨headers⟩
  match zipStar msg_tuples with
  | [cts, parts] =>
      send_message topic ((hdrs.set contentTypeKey (.arr cts)).dict) parts kwargs
  | _ => ⟨[], some .valueError⟩

/-- Modelled external transport primitive: receive one frame, or fail when no
frame is available. -/
def recvFrame : List Frame → Except PyError (Frame × List Frame)
  | [] => .error .again
  | f :: w => .ok (f, w)

/-- Modelled external transport primitive `recv_string`: receive one frame and
decode it as UTF-8 (a decode error on malformed bytes); also reports the
frame's more flag, which is what `self.rcvmore` holds after the receive. -/
def recvString (w : List Frame) : Except PyError (UText × Bool × List Frame) := do
  let (f, w1) ← recvFrame w
  match utf8Decode f.data with
  | none => .error .decodeError
  | some t => .ok (t, f.more, w1)

/-- Modelled external transport primitive `recv_multipart`: receive frames
until one arrives without the more flag, returning their byte contents. -/
def recvMultipart : List Frame → Except PyError (List PyBytes × List Frame)
  | [] => .error .again
  | f :: w =>
    if f.more then do
      let (rest, w1) ← recvMultipart w
      .ok (f.data :: rest, w1)
    else .ok ([f.data], w)

/-- Translation of `Socket.recv_message(flags)`: receive the topic as UTF-8;
if more frames are pending receive the headers frame as UTF-8; parse it as
structured text unless the text is empty (empty text meaning no headers); wrap
the mapping in `Headers`; if more frames are still pending receive the
remaining frames as the message parts. Returns the decoded triple and the
frames left on the wire. -/
def recv_message (wire : List Frame) :
    Except PyError ((UText × Headers × List PyBytes) × List Frame) := do
  let (topic, more1, w1) ← recvString wire
  let (hdrsText, more2, w2) ←
    if more1 then recvString w1 else pure ([], more1, w1)
  let rawHeaders ←
    if hdrsText = [] then pure (PyObj.obj [])
    else
      match jsonLoads hdrsText with
      | some v => pure v
      | none => Except.error PyError.decodeError
  let hdrs ← headersOfJson rawHeaders
  let (message, w3) ←
    if more2 then recvMultipart w2 else pure ([], w2)
  pure ((topic, hdrs, message), w3)

/-- Python iteration over a decoded header value, as `zip` performs it: a
sequence yields its elements, a string its one-character substrings, a mapping
its keys, a byte string its byte values; any other value is not iterable and
raises `TypeError`. -/
def pyIter : PyObj → Except PyError (List PyObj)
  | .str s => .ok (s.map (fun c => .str [c]))
  | .arr xs => .ok xs
  | .obj kvs => .ok (kvs.map (fun kv => .str kv.1))
  | .pybytes b => .ok (b.map (fun x => .num (Int.ofNat x)))
  | _ => .error .dataTypeError

/-- Translation of `Socket.recv_message_ex(flags)`: delegate to
`recv_message`, then replace the message component by
`list(zip(headers['Content-Type'], message))`. -/
def recv_message_ex (wire : List Frame) :
    Except PyError ((UText × Headers × List (PyObj × PyBytes)) × List Frame) := do
  let ((topic, headers, message), w) ← recv_message wire
  let cts ← pyIter (headers.get contentTypeKey)
  pure ((topic, headers, List.zip cts message), w)

/-! ## UTF-8 round trip -/

theorem utf8Decode_encodeChar (c : Nat) (hc : validCp c = true) (bs : PyBytes) :
    utf8Decode (utf8EncodeChar c ++ bs) = (utf8Decode bs).map (c :: ·) := by
  have hv : c < 55296 ∨ (57344 ≤ c ∧ c < 1114112) := by
    simpa [validCp, Bool.or_eq_true, Bool.and_eq_true, decide_eq_true_eq] using hc
  by_cases h1 : c < 128
  · rw [show utf8EncodeChar c = [c] from by rw [utf8EncodeChar, if_pos h1]]
    rw [List.cons_append, List.nil_append, utf8Decode, if_pos h1]
  · by_cases h2 : c < 2048
    · rw [show utf8EncodeChar c = [192 + c / 64, 128 + c % 64] from by
        rw [utf8EncodeChar, if_neg h1, if_pos h2]]
      have e0 : ¬ (192 + c / 64 < 128) := by omega
      have e1 : ¬ (192 + c / 64 < 194) := by omega
      have e2 : 192 + c / 64 < 224 := by omega
      have e3 : isCont (128 + c % 64) = true := by
        simp only [isCont, Bool.and_eq_true, decide_eq_true_eq]
        omega
      have hval : (192 + c / 64 - 192) * 64 + (128 + c % 64 - 128) = c := by omega
      simp only [List.cons_append, List.nil_append]
      rw [utf8Decode, if_neg e0, if_neg e1, if_pos e2, utf8Decode2]
      simp only [e3, if_true, hval]
    · by_cases h3 : c < 65536
      · rw [show utf8EncodeChar c = [224 + c / 4096, 128 + c / 64 % 64, 128 + c % 64] from by
          rw [utf8EncodeChar, if_neg h1, if_neg h2, if_pos h3]]
        have e0 : ¬ (224 + c / 4096 < 128) := by omega
        have e1 : ¬ (224 + c / 4096 < 194) := by omega
        have e2 : ¬ (224 + c / 4096 < 224) := by omega
        have e3 : 224 + c / 4096 < 240 := by omega
        have c1 : isCont (128 + c / 64 % 64) = true := by
          simp only [isCont, Bool.and_eq_true, decide_eq_true_eq]
          omega
        have c2 : isCont (128 + c % 64) = true := by
          simp only [isCont, Bool.and_eq_true, decide_eq_true_eq]
          omega
        have hval : (224 + c / 4096 - 224) * 4096 + (128 + c / 64 % 64 - 128) * 64 +
            (128 + c % 64 - 128) = c := by omega
        have hg : (2048 ≤ c ∧ (c < 55296 ∨ 57344 ≤ c)) := by
          constructor
          · omega
          · rcases hv with h | h
            · exact Or.inl h
            · exact Or.inr h.1
        simp only [List.cons_append, List.nil_append]
        rw [utf8Decode, if_neg e0, if_neg e1, if_neg e2, if_pos e3, utf8Decode3]
        simp only [c1, c2, Bool.and_self, if_true, hval]
        rw [if_pos (by simpa [Bool.and_eq_true, Bool.or_eq_true, decide_eq_true_eq] using hg)]
      · have h4 : c < 1114112 := by
          rcases hv with h | h
          · omega
          · exact h.2
        rw [show utf8EncodeChar c =
            [240 + c / 262144, 128 + c / 4096 % 64, 128 + c / 64 % 64, 128 + c % 64] from by
          rw [utf8EncodeChar, if_neg h1, if_neg h2, if_neg h3]]
        have e0 : ¬ (240 + c / 262144 < 128) := by omega
        have e1 : ¬ (240 + c / 262144 < 194) := by omega
        have e2 : ¬ (240 + c / 262144 < 224) := by omega
        have e3 : ¬ (240 + c / 262144 < 240) := by omega
        have e4 : 240 + c / 262144 < 245 := by omega
        have c1 : isCont (128 + c / 4096 % 64) = true := by
          simp only [isCont, Bool.and_eq_true, decide_eq_true_eq]
          omega
        have c2 : isCont (128 + c / 64 % 64) = true := by
          simp only [isCont, Bool.and_eq_true, decide_eq_true_eq]
          omega
        have c3 : isCont (128 + c % 64) = true := by
          simp only [isCont, Bool.and_eq_true, decide_eq_true_eq]
          omega
        have hval : (240 + c / 262144 - 240) * 262144 + (128 + c / 4096 % 64 - 128) * 4096 +
            (128 + c / 64 % 64 - 128) * 64 + (128 + c % 64 - 128) = c := by omega
        have hg : (65536 ≤ c ∧ c < 1114112) := ⟨by omega, h4⟩
        simp only [List.cons_append, List.nil_append]
        rw [utf8Decode, if_neg e0, if_neg e1, if_neg e2, if_neg e3, if_pos e4, utf8Decode4]
        simp only [c1, c2, c3, Bool.and_self, if_true, hval]
        rw [if_pos (by simpa [Bool.and_eq_true, decide_eq_true_eq] using hg)]

theorem utf8Decode_utf8Encode (t : UText) (h : t.all validCp = true) (bs : PyBytes) :
    utf8Decode (utf8Encode t ++ bs) = (utf8Decode bs).map (t ++ ·) := by
  induction t with
  | nil => simp [utf8Encode]
  | cons c cs ih =>
    simp only [List.all_cons, Bool.and_eq_true] at h
    simp only [utf8Encode, List.append_assoc]
    rw [utf8Decode_encodeChar c h.1, ih h.2]
    cases utf8Decode bs <;> simp

/-! ## Structured-text round trip -/

theorem parseCnt_cntText (n : Nat) (rest : UText) :
    parseCnt (cntText n ++ rest) = some (n, rest) := by
  induction n with
  | zero => simp [cntText, parseCnt]
  | succ m ih =>
    rw [show cntText (m + 1) ++ rest = 35 :: (cntText m ++ rest) from by
      simp [cntText, List.replicate_succ]]
    rw [parseCnt, ih]
    rfl

theorem takeN_append (s rest : UText) : takeN s.length (s ++ rest) = some (s, rest) := by
  induction s with
  | nil => simp [takeN]
  | cons c t ih => simp [takeN, ih]

theorem encVal_length_pos (v : PyObj) : 1 ≤ (encVal v).length := by
  cases v with
  | boolean b => cases b <;> simp [encVal]
  | _ => simp [encVal]

theorem encItems_length_pos (xs : List PyObj) : 1 ≤ (encItems xs).length := by
  cases xs with
  | nil => simp [encItems]
  | cons x t =>
    have := encVal_length_pos x
    simp only [encItems, List.length_append]
    omega

theorem encProps_length_pos (kvs : List (UText × PyObj)) : 1 ≤ (encProps kvs).length := by
  cases kvs with
  | nil => simp [encProps]
  | cons kv t => simp [encProps]

theorem encVal_head_ne (v : PyObj) : ∃ b t, encVal v = b :: t ∧ b ≠ 93 := by
  cases v with
  | null => exact ⟨110, _, rfl, by omega⟩
  | boolean b =>
    cases b
    · exact ⟨102, _, rfl, by omega⟩
    · exact ⟨116, _, rfl, by omega⟩
  | num n => exact ⟨105, _, rfl, by omega⟩
  | str s => exact ⟨115, _, rfl, by omega⟩
  | arr xs => exact ⟨97, _, rfl, by omega⟩
  | obj kvs => exact ⟨111, _, rfl, by omega⟩
  | pybytes b => exact ⟨98, _, rfl, by omega⟩

theorem parseItems_step (m : Nat) (b : Nat) (t : UText) (hb : b ≠ 93) :
    parseItems (m + 1) (b :: t) =
      (do
        let (v, r1) ← parseVal m (b :: t)
        let (xs, r2) ← parseItems m r1
        some (v :: xs, r2)) := by
  rw [parseItems.eq_def]
  split
  · omega
  · rename_i n r heq1 heq2
    injection heq2 with hb2 ht2
    exact absurd hb2 hb
  · rename_i fuel heq hne
    obtain rfl : fuel = m := by omega
    rfl

theorem parse_encode_all (fuel : Nat) :
    (∀ v rest, serializableB v = true → (encVal v).length ≤ fuel →
      parseVal fuel (encVal v ++ rest) = some (v, rest)) ∧
    (∀ xs rest, serializableListB xs = true → (encItems xs).length ≤ fuel →
      parseItems fuel (encItems xs ++ rest) = some (xs, rest)) ∧
    (∀ kvs rest, serializableKvsB kvs = true → (encProps kvs).length ≤ fuel →
      parseProps fuel (encProps kvs ++ rest) = some (kvs, rest)) := by
  induction fuel using Nat.strong_induction_on with
  | _ fuel ih =>
  obtain _ | m := fuel
  · refine ⟨?_, ?_, ?_⟩
    · intro v rest _ hlen
      exact absurd hlen (by have := encVal_length_pos v; omega)
    · intro xs rest _ hlen
      exact absurd hlen (by have := encItems_length_pos xs; omega)
    · intro kvs rest _ hlen
      exact absurd hlen (by have := encProps_length_pos kvs; omega)
  · have ihm := ih m (Nat.lt_succ_self m)
    refine ⟨?_, ?_, ?_⟩
    · intro v rest hs hlen
      cases v with
      | null => simp [encVal, parseVal]
      | boolean b => cases b <;> simp [encVal, parseVal]
      | num n =>
        by_cases hn : 0 ≤ n
        · rw [show encVal (.num n) ++ rest = 105 :: 43 :: (cntText n.toNat ++ rest) from by
            simp [encVal, hn]]
          simp [parseVal, parseCnt_cntText, Int.toNat_of_nonneg hn]
        · rw [show encVal (.num n) ++ rest = 105 :: 45 :: (cntText (-n).toNat ++ rest) from by
            simp [encVal, hn]]
          simp [parseVal, parseCnt_cntText]
          rw [max_eq_left (by omega : (0 : Int) ≤ -n)]
          omega
      | str s =>
        rw [show encVal (.str s) ++ rest = 115 :: (cntText s.length ++ (s ++ rest)) from by
          simp [encVal]]
        simp [parseVal, parseCnt_cntText, takeN_append]
      | arr xs =>
        simp only [serializableB] at hs
        have hlen' : (encItems xs).length ≤ m := by
          simp only [encVal, List.length_cons] at hlen
          omega
        rw [show encVal (.arr xs) ++ rest = 97 :: (encItems xs ++ rest) from by simp [encVal]]
        simp [parseVal, ihm.2.1 xs rest hs hlen']
      | obj kvs =>
        simp only [serializableB] at hs
        have hlen' : (encProps kvs).length ≤ m := by
          simp only [encVal, List.length_cons] at hlen
          omega
        rw [show encVal (.obj kvs) ++ rest = 111 :: (encProps kvs ++ rest) from by
          simp [encVal]]
        simp [parseVal, ihm.2.2 kvs rest hs hlen']
      | pybytes b => simp [serializableB] at hs
    · intro xs rest hs hlen
      cases xs with
      | nil =>
        rw [show encItems [] ++ rest = 93 :: rest from by simp [encItems]]
        simp [parseItems]
      | cons x txs =>
        simp only [serializableListB, Bool.and_eq_true] at hs
        have hx1 := encVal_length_pos x
        have ht1 := encItems_length_pos txs
        simp only [encItems, List.length_append] at hlen
        obtain ⟨b, tb, hbt, hb93⟩ := encVal_head_ne x
        rw [show encItems (x :: txs) ++ rest = b :: (tb ++ (encItems txs ++ rest)) from by
          simp [encItems, hbt]]
        rw [parseItems_step m b _ hb93]
        rw [show (b :: (tb ++ (encItems txs ++ rest)) : UText) =
            encVal x ++ (encItems txs ++ rest) from by simp [hbt]]
        simp [ihm.1 x (encItems txs ++ rest) hs.1 (by omega),
          ihm.2.1 txs rest hs.2 (by omega)]
    · intro kvs rest hs hlen
      cases kvs with
      | nil =>
        rw [show encProps [] ++ rest = 93 :: rest from by simp [encProps]]
        simp [parseProps]
      | cons kv tkvs =>
        obtain ⟨k, v⟩ := kv
        simp only [serializableKvsB, Bool.and_eq_true] at hs
        have hv1 := encVal_length_pos v
        have ht1 := encProps_length_pos tkvs
        simp only [encProps, cntText, List.length_append, List.length_cons,
          List.length_replicate] at hlen
        rw [show encProps ((k, v) :: tkvs) ++ rest =
            115 :: (cntText k.length ++ (k ++ (encVal v ++ (encProps tkvs ++ rest)))) from by
          simp [encProps]]
        simp [parseProps, parseCnt_cntText, takeN_append,
          ihm.1 v (encProps tkvs ++ rest) hs.1 (by omega),
          ihm.2.2 tkvs rest hs.2 (by omega)]

theorem jsonLoads_enc (v : PyObj) (hs : serializableB v = true) :
    jsonLoads (encVal v) = some v := by
  have h := (parse_encode_all (encVal v).length).1 v [] hs le_rfl
  rw [List.append_nil] at h
  rw [jsonLoads, h]

theorem all_replicate_valid (n a : Nat) (h : validCp a = true) :
    (List.replicate n a).all validCp = true := by
  induction n with
  | zero => rfl
  | succ m ih => simp [List.replicate_succ, List.all_cons, h, ih]

theorem cntText_all_valid (n : Nat) : (cntText n).all validCp = true := by
  simp only [cntText, List.all_append, Bool.and_eq_true]
  exact ⟨all_replicate_valid n 35 (by decide), by decide⟩

mutual
theorem encVal_all_valid (v : PyObj) (h : pvalidB v = true) :
    (encVal v).all validCp = true := by
  cases v with
  | null => decide
  | boolean b => cases b <;> decide
  | num n =>
    by_cases hn : 0 ≤ n <;>
      simp [encVal, hn, List.all_cons, cntText_all_valid, validCp]
  | str s =>
    simp only [pvalidB] at h
    simp [encVal, List.all_cons, List.all_append, cntText_all_valid, h, validCp]
  | arr xs =>
    simp only [pvalidB] at h
    simp [encVal, List.all_cons, encItems_all_valid xs h, validCp]
  | obj kvs =>
    simp only [pvalidB] at h
    simp [encVal, List.all_cons, encProps_all_valid kvs h, validCp]
  | pybytes b => simp [pvalidB] at h

theorem encItems_all_valid (xs : List PyObj) (h : pvalidListB xs = true) :
    (encItems xs).all validCp = true := by
  cases xs with
  | nil => decide
  | cons x txs =>
    simp only [pvalidListB, Bool.and_eq_true] at h
    simp [encItems, List.all_append, encVal_all_valid x h.1, encItems_all_valid txs h.2]

theorem encProps_all_valid (kvs : List (UText × PyObj)) (h : pvalidKvsB kvs = true) :
    (encProps kvs).all validCp = true := by
  cases kvs with
  | nil => decide
  | cons kv tkvs =>
    obtain ⟨k, v⟩ := kv
    simp only [pvalidKvsB, Bool.and_eq_true] at h
    simp [encProps, List.all_append, List.all_cons, cntText_all_valid, h.1.1,
      encVal_all_valid v h.1.2, encProps_all_valid tkvs h.2, validCp]
end

mutual
theorem pvalid_serializable (v : PyObj) (h : pvalidB v = true) : serializableB v = true := by
  cases v with
  | null => rfl
  | boolean b => rfl
  | num n => rfl
  | str s => rfl
  | arr xs =>
    simp only [pvalidB] at h
    simpa [serializableB] using pvalid_serializable_list xs h
  | obj kvs =>
    simp only [pvalidB] at h
    simpa [serializableB] using pvalid_serializable_kvs kvs h
  | pybytes b => simp [pvalidB] at h

theorem pvalid_serializable_list (xs : List PyObj) (h : pvalidListB xs = true) :
    serializableListB xs = true := by
  cases xs with
  | nil => rfl
  | cons x txs =>
    simp only [pvalidListB, Bool.and_eq_true] at h
    simp [serializableListB, pvalid_serializable x h.1, pvalid_serializable_list txs h.2]

theorem pvalid_serializable_kvs (kvs : List (UText × PyObj)) (h : pvalidKvsB kvs = true) :
    serializableKvsB kvs = true := by
  cases kvs with
  | nil => rfl
  | cons kv tkvs =>
    obtain ⟨k, v⟩ := kv
    simp only [pvalidKvsB, Bool.and_eq_true] at h
    simp [serializableKvsB, pvalid_serializable v h.1.2, pvalid_serializable_kvs tkvs h.2]
end

/-! ## Transport and codec composition -/

theorem utf8_roundtrip (t : UText) (h : t.all validCp = true) :
    utf8Decode (utf8Encode t) = some t := by
  have h0 := utf8Decode_utf8Encode t h []
  simpa [utf8Decode] using h0

theorem hasMore_lor_SNDMORE (flags : Nat) : hasMore (flags ||| SNDMORE) = true := by
  have h2 : Nat.testBit 2 1 = true := by decide
  simp [hasMore, SNDMORE, Nat.testBit_lor, h2]

theorem hasMore_lor_zero (flags : Nat) : hasMore (flags ||| 0) = hasMore flags := by
  simp [hasMore]

theorem recvMultipart_sendMp (ps : List PyBytes) (flags : Nat) (hps : ps ≠ [])
    (hf : hasMore flags = false) (rest : List Frame) :
    recvMultipart (sendMpFrames (ps.map PyObj.pybytes) flags ++ rest) = .ok (ps, rest) := by
  induction ps with
  | nil => exact absurd rfl hps
  | cons p tps ih =>
    cases tps with
    | nil => simp [sendMpFrames, recvMultipart, hf, pyBytesData]
    | cons q tqs =>
      have hmore := hasMore_lor_SNDMORE flags
      have ih1 := ih (by simp)
      simp only [List.map_cons] at ih1
      simp [sendMpFrames, recvMultipart, hmore, pyBytesData, ih1, bind, Except.bind]

theorem popKw_extra (kwargs : List (UText × Nat)) (k : UText) (v : Nat)
    (hk : (k, v) ∈ kwargs) (hne : k ≠ flagsKey) :
    (popKw kwargs flagsKey 0).2 ≠ [] := by
  induction kwargs with
  | nil => simp at hk
  | cons kv rest ih =>
    by_cases h : kv.1 == flagsKey
    · rcases List.mem_cons.mp hk with h1 | h1
      · rw [← h1] at h
        simp only [beq_iff_eq] at h
        exact absurd h hne
      · have hrest : rest ≠ [] := List.ne_nil_of_mem h1
        simp [popKw, h, hrest]
    · simp [popKw, h]

theorem send_message_frames (topic : UText) (d : List (UText × PyObj)) (ps : List PyBytes)
    (kwargs : List (UText × Nat)) (flags : Nat)
    (hkw : popKw kwargs flagsKey 0 = (flags, []))
    (hs : serializableB (PyObj.obj d) = true)
    (hf : hasMore flags = false) :
    send_message topic d (ps.map PyObj.pybytes) kwargs =
      ⟨⟨utf8Encode topic, true⟩ ::
        ⟨utf8Encode (encVal (PyObj.obj d)), !ps.isEmpty⟩ ::
        sendMpFrames (ps.map PyObj.pybytes) flags, none⟩ := by
  have hdict : (if d.isEmpty then (⟨[]⟩ : Headers) else ⟨d⟩).dict = d := by
    cases d <;> simp
  cases ps with
  | nil =>
    simp [send_message, hkw, hdict, jsonDumps, hs, hasMore_lor_SNDMORE, hasMore_lor_zero, hf,
      sendMpFrames]
  | cons p tps =>
    have hall : ((p :: tps).map PyObj.pybytes).all isPyBytes = true := by
      simp [List.all_map, isPyBytes, Function.comp]
    have hmp : sendMultipart ((p :: tps).map PyObj.pybytes) flags =
        .ok (sendMpFrames ((p :: tps).map PyObj.pybytes) flags) := by
      rw [sendMultipart, if_pos hall]
    simp only [List.map_cons] at hmp
    simp [send_message, hkw, hdict, jsonDumps, hs, hasMore_lor_SNDMORE, hasMore_lor_zero, hf,
      hmp]

theorem plain_roundtrip_aux (topic : UText) (d : List (UText × PyObj)) (ps : List PyBytes)
    (kwargs : List (UText × Nat)) (flags : Nat)
    (hkw : popKw kwargs flagsKey 0 = (flags, [])) (hf : hasMore flags = false)
    (ht : topic.all validCp = true) (hd : pvalidB (PyObj.obj d) = true) :
    (send_message topic d (ps.map PyObj.pybytes) kwargs).error = none ∧
    recv_message (send_message topic d (ps.map PyObj.pybytes) kwargs).frames =
      .ok ((topic, ⟨d⟩, ps), []) := by
  have hs := pvalid_serializable _ hd
  rw [send_message_frames topic d ps kwargs flags hkw hs hf]
  refine ⟨rfl, ?_⟩
  have h1 : utf8Decode (utf8Encode topic) = some topic := utf8_roundtrip topic ht
  have h2 : utf8Decode (utf8Encode (encVal (PyObj.obj d))) = some (encVal (PyObj.obj d)) :=
    utf8_roundtrip _ (encVal_all_valid _ hd)
  have h3 : jsonLoads (encVal (PyObj.obj d)) = some (PyObj.obj d) := jsonLoads_enc _ hs
  have h4 : encVal (PyObj.obj d) ≠ [] := by simp [encVal]
  cases ps with
  | nil =>
    simp [recv_message, recvString, recvFrame, sendMpFrames, h1, h2, h3, h4, headersOfJson,
      bind, Except.bind, pure, Except.pure, Functor.map, Except.map]
  | cons p tps =>
    have h5 := recvMultipart_sendMp (p :: tps) flags (by simp) hf []
    rw [List.append_nil] at h5
    simp only [List.map_cons] at h5
    simp [recv_message, recvString, recvFrame, h1, h2, h3, h4, h5, headersOfJson,
      bind, Except.bind, pure, Except.pure, Functor.map, Except.map]

/-! ## Tuple unpacking and headers lemmas -/

theorem zipStar_length (ts : List (List PyObj)) : (zipStar ts).length = zipStarLen ts := by
  simp [zipStar]

theorem zipStarLen_pairs {α : Type} (L : List α) (f g : α → PyObj) (hL : L ≠ []) :
    zipStarLen (L.map fun p => [f p, g p]) = 2 := by
  induction L with
  | nil => exact absurd rfl hL
  | cons p rest ih =>
    cases rest with
    | nil => rfl
    | cons q tq =>
      have ih1 := ih (by simp)
      simp only [List.map_cons] at ih1 ⊢
      rw [show zipStarLen ([f p, g p] :: [f q, g q] :: List.map (fun p => [f p, g p]) tq) =
          min ([f p, g p]).length
            (zipStarLen ([f q, g q] :: List.map (fun p => [f p, g p]) tq)) from by
        rw [zipStarLen]; simp]
      rw [ih1]
      simp

theorem zipStar_pairs {α : Type} (L : List α) (f g : α → PyObj) (hL : L ≠ []) :
    zipStar (L.map fun p => [f p, g p]) = [L.map f, L.map g] := by
  rw [zipStar, zipStarLen_pairs L f g hL]
  rw [show List.range 2 = [0, 1] from rfl]
  simp [List.map_map, Function.comp_def]

theorem zipStarLen_le (ts : List (List PyObj)) (t : List PyObj) (ht : t ∈ ts) :
    zipStarLen ts ≤ t.length := by
  induction ts with
  | nil => simp at ht
  | cons a tas ih =>
    cases tas with
    | nil =>
      rw [List.mem_singleton] at ht
      subst ht
      exact le_rfl
    | cons b tbs =>
      rw [show zipStarLen (a :: b :: tbs) = min a.length (zipStarLen (b :: tbs)) from by
        rw [zipStarLen]; simp]
      rcases List.mem_cons.mp ht with h1 | h1
      · subst h1
        exact min_le_left _ _
      · exact le_trans (min_le_right _ _) (ih h1)

theorem zipStarLen_ge (ts : List (List PyObj)) (hne : ts ≠ [])
    (h : ∀ t ∈ ts, 3 ≤ t.length) : 3 ≤ zipStarLen ts := by
  induction ts with
  | nil => exact absurd rfl hne
  | cons a tas ih =>
    cases tas with
    | nil =>
      rw [show zipStarLen [a] = a.length from by rw [zipStarLen]]
      exact h a (by simp)
    | cons b tbs =>
      rw [show zipStarLen (a :: b :: tbs) = min a.length (zipStarLen (b :: tbs)) from by
        rw [zipStarLen]; simp]
      have h1 := h a (by simp)
      have h2 := ih (by simp) (fun t htm => h t (List.mem_cons_of_mem a htm))
      omega

theorem get_setKv (d : List (UText × PyObj)) (k : UText) (v : PyObj) :
    Headers.get ⟨setKv d k v⟩ k = v := by
  induction d with
  | nil => simp [Headers.get, Headers.find?, setKv, List.find?]
  | cons kv rest ih =>
    by_cases h : (ciKey kv.1 == ciKey k) = true
    · simp [setKv, h, Headers.get, Headers.find?, List.find?]
    · simp only [Headers.get, Headers.find?] at ih
      simp [setKv, h, Headers.get, Headers.find?, List.find?, ih]

theorem pvalidKvs_setKv (d : List (UText × PyObj)) (k : UText) (v : PyObj)
    (hd : pvalidKvsB d = true) (hk : k.all validCp = true) (hv : pvalidB v = true) :
    pvalidKvsB (setKv d k v) = true := by
  induction d with
  | nil => simp [setKv, pvalidKvsB, hk, hv]
  | cons kv rest ih =>
    obtain ⟨k0, v0⟩ := kv
    simp only [pvalidKvsB, Bool.and_eq_true] at hd
    by_cases h : (ciKey k0 == ciKey k) = true
    · simp [setKv, h, pvalidKvsB, hd.1.1, hv, hd.2]
    · simp [setKv, h, pvalidKvsB, hd.1.1, hd.1.2, ih hd.2]

theorem pvalidListB_map_str (L : List (UText × PyBytes))
    (h : ∀ p ∈ L, p.1.all validCp = true) :
    pvalidListB (L.map fun p => PyObj.str p.1) = true := by
  induction L with
  | nil => rfl
  | cons p rest ih =>
    simp [pvalidListB, pvalidB, h p (List.mem_cons_self p rest),
      ih (fun q hq => h q (List.mem_cons_of_mem p hq))]

theorem sendMpFrames_length (ps : List PyObj) (flags : Nat) :
    (sendMpFrames ps flags).length = ps.length := by
  induction ps with
  | nil => rfl
  | cons p tps ih =>
    cases tps with
    | nil => rfl
    | cons q tqs => simp [sendMpFrames, ih]

theorem sendMpFrames_more (ps : List PyBytes) (flags : Nat) (hf : hasMore flags = false) :
    ps ≠ [] →
    (sendMpFrames (ps.map PyObj.pybytes) flags).map Frame.more =
      List.replicate (ps.length - 1) true ++ [false] := by
  induction ps with
  | nil => intro h; exact absurd rfl h
  | cons p tps ih =>
    intro _
    cases tps with
    | nil => simp [sendMpFrames, hf]
    | cons q tqs =>
      have ih1 := ih (by simp)
      simp only [List.map_cons] at ih1
      simp [sendMpFrames, hasMore_lor_SNDMORE, ih1, List.replicate_succ]

/-! ## Claim theorems -/

/-- C1: plain-form round trip - for every topic string, well-formed header
mapping and list of byte-string parts (empty headers and empty parts
included), decoding with `recv_message` the exact frame sequence produced by
`send_message(topic, headers, *parts)` succeeds, yields the original topic,
`Headers` built from the original mapping, and the original parts list, and
consumes the whole message. -/
theorem claim1_plain_roundtrip (topic : UText) (headers : List (UText × PyObj))
    (parts : List PyBytes) (ht : topic.all validCp = true)
    (hh : pvalidB (PyObj.obj headers) = true) :
    (send_message topic headers (parts.map PyObj.pybytes) []).error = none ∧
    recv_message (send_message topic headers (parts.map PyObj.pybytes) []).frames =
      .ok ((topic, Headers.mk headers, parts), []) :=
  plain_roundtrip_aux topic headers parts [] 0 rfl rfl ht hh

/-- Witness for C1 at a concrete topic (with a non-ASCII code point), a
one-entry header mapping, and two parts (one empty). -/
theorem claim1_plain_roundtrip_witness :
    (send_message [116, 955] [([107], PyObj.num 3)]
      ([[1, 2], []].map PyObj.pybytes) []).error = none ∧
    recv_message (send_message [116, 955] [([107], PyObj.num 3)]
      ([[1, 2], []].map PyObj.pybytes) []).frames =
      .ok (([116, 955], Headers.mk [([107], PyObj.num 3)], [[1, 2], []]), []) :=
  claim1_plain_roundtrip [116, 955] [([107], PyObj.num 3)] [[1, 2], []]
    (by decide) (by decide)

/-- C2: frame-count and more-flag determinism - a successful `send_message`
call with `N` byte-string parts writes exactly `N + 2` frames (so exactly 2
when `N = 0`); the topic frame is marked more, the headers frame is marked
more exactly when `N > 0`, and the final frame is unmarked: the transmitted
more flags are `N + 1` times `true` followed by one `false`. Holds for any
caller flags without the `SNDMORE` bit (flags pass through to the transport
uninterpreted). -/
theorem claim2_frame_count (topic : UText) (headers : List (UText × PyObj))
    (parts : List PyBytes) (kwargs : List (UText × Nat)) (flags : Nat)
    (hkw : popKw kwargs flagsKey 0 = (flags, []))
    (hs : serializableB (PyObj.obj headers) = true)
    (hf : hasMore flags = false) :
    (send_message topic headers (parts.map PyObj.pybytes) kwargs).error = none ∧
    (send_message topic headers (parts.map PyObj.pybytes) kwargs).frames.length =
      parts.length + 2 ∧
    (send_message topic headers (parts.map PyObj.pybytes) kwargs).frames.map Frame.more =
      List.replicate (parts.length + 1) true ++ [false] := by
  rw [send_message_frames topic headers parts kwargs flags hkw hs hf]
  refine ⟨rfl, ?_, ?_⟩
  · simp [sendMpFrames_length]
  · cases parts with
    | nil => simp [sendMpFrames]
    | cons p tps =>
      have hm := sendMpFrames_more (p :: tps) flags hf (by simp)
      simp only [List.map_cons] at hm
      simp [hm, List.replicate_succ]

/-- Witness for C2 at three parts with an explicit `flags` keyword argument. -/
theorem claim2_frame_count_witness :
    (send_message [116] [([107], PyObj.boolean true)] ([[5], [6], [7]].map PyObj.pybytes)
      [(flagsKey, 0)]).error = none ∧
    (send_message [116] [([107], PyObj.boolean true)] ([[5], [6], [7]].map PyObj.pybytes)
      [(flagsKey, 0)]).frames.length = 3 + 2 ∧
    (send_message [116] [([107], PyObj.boolean true)] ([[5], [6], [7]].map PyObj.pybytes)
      [(flagsKey, 0)]).frames.map Frame.more = List.replicate 4 true ++ [false] :=
  claim2_frame_count [116] [([107], PyObj.boolean true)] [[5], [6], [7]] [(flagsKey, 0)] 0
    (by decide) (by decide) (by decide)

/-- C3 counterexample: called with an empty tuple sequence, `send_message_ex`
does not transmit the message - the unpacking of `list(zip(*msg_tuples))`
(an empty list) into two names raises a `ValueError` before any frame is
written, contradicting the claim that the empty input splits into two empty
sequences and is transmitted. -/
theorem claim3_empty_send_ex_cex :
    send_message_ex [116] [] [] [] = ⟨[], some PyError.valueError⟩ := rfl

/-- C3 amended: for every topic, header mapping and keyword arguments,
`send_message_ex` with an empty tuple sequence raises a `ValueError` (from
unpacking the empty `list(zip(*msg_tuples))` into two names) and transmits no
frame at all. -/
theorem claim3_empty_send_ex_raises (topic : UText) (headers : List (UText × PyObj))
    (kwargs : List (UText × Nat)) :
    send_message_ex topic headers [] kwargs = ⟨[], some PyError.valueError⟩ := rfl

theorem send_ex_pairs (topic : UText) (headers : List (UText × PyObj))
    (L : List (UText × PyBytes)) (kwargs : List (UText × Nat)) (hL : L ≠ []) :
    send_message_ex topic headers (L.map fun p => [PyObj.str p.1, PyObj.pybytes p.2]) kwargs =
      send_message topic
        (setKv headers contentTypeKey (PyObj.arr (L.map fun p => PyObj.str p.1)))
        ((L.map Prod.snd).map PyObj.pybytes) kwargs := by
  have hz := zipStar_pairs L (fun p => PyObj.str p.1) (fun p => PyObj.pybytes p.2) hL
  have hset : ((if headers.isEmpty then (⟨[]⟩ : Headers) else ⟨headers⟩).set contentTypeKey
      (PyObj.arr (L.map fun p => PyObj.str p.1))).dict =
      setKv headers contentTypeKey (PyObj.arr (L.map fun p => PyObj.str p.1)) := by
    cases headers <;> simp [Headers.set]
  simp [send_message_ex, hz, hset, List.map_map, Function.comp_def]

/-- C4 counterexample: the extended round trip fails at the empty pair list -
`send_message_ex` with zero (content-type, bytes) tuples raises a
`ValueError` and transmits nothing, so no frame sequence carrying the message
exists to decode (receiving on the empty wire blocks). -/
theorem claim4_roundtrip_ex_empty_cex :
    send_message_ex [117] [([107], PyObj.null)] [] [] = ⟨[], some PyError.valueError⟩ ∧
    recv_message_ex (send_message_ex [117] [([107], PyObj.null)] [] []).frames =
      .error PyError.again :=
  ⟨rfl, rfl⟩

/-- C4 amended: extended-form round trip for every NONEMPTY pair list - for
every topic, well-formed header mapping and nonempty list `L` of
(content-type string, bytes) pairs, `recv_message_ex` on the frames produced
by `send_message_ex` succeeds and returns the topic, the headers with their
`Content-Type` entry overwritten by the content types of `L`, and `L` itself
as the paired parts. -/
theorem claim4_roundtrip_ex (topic : UText) (headers : List (UText × PyObj))
    (L : List (UText × PyBytes)) (ht : topic.all validCp = true)
    (hh : pvalidB (PyObj.obj headers) = true) (hL : L ≠ [])
    (hct : ∀ p ∈ L, p.1.all validCp = true) :
    (send_message_ex topic headers
      (L.map fun p => [PyObj.str p.1, PyObj.pybytes p.2]) []).error = none ∧
    recv_message_ex (send_message_ex topic headers
      (L.map fun p => [PyObj.str p.1, PyObj.pybytes p.2]) []).frames =
      .ok ((topic,
        Headers.mk (setKv headers contentTypeKey (PyObj.arr (L.map fun p => PyObj.str p.1))),
        L.map fun p => (PyObj.str p.1, p.2)), []) := by
  have hdval : pvalidB (PyObj.obj
      (setKv headers contentTypeKey (PyObj.arr (L.map fun p => PyObj.str p.1)))) = true := by
    simp only [pvalidB]
    apply pvalidKvs_setKv
    · simpa [pvalidB] using hh
    · decide
    · simp only [pvalidB]
      exact pvalidListB_map_str L hct
  rw [send_ex_pairs topic headers L [] hL]
  have haux := plain_roundtrip_aux topic
    (setKv headers contentTypeKey (PyObj.arr (L.map fun p => PyObj.str p.1)))
    (L.map Prod.snd) [] 0 rfl rfl ht hdval
  refine ⟨haux.1, ?_⟩
  have hget := get_setKv headers contentTypeKey
    (PyObj.arr (L.map fun p => PyObj.str p.1))
  have haux2 := haux.2
  simp only [List.map_map] at haux2
  simp [recv_message_ex, haux2, hget, pyIter, bind, Except.bind, pure, Except.pure,
    List.zip_map']

/-- Witness for C4 at two concrete pairs. -/
theorem claim4_roundtrip_ex_witness :
    (send_message_ex [116] []
      ([([97], [1]), ([98], [2])].map fun p => [PyObj.str p.1, PyObj.pybytes p.2]) []).error =
      none ∧
    recv_message_ex (send_message_ex [116] []
      ([([97], [1]), ([98], [2])].map fun p => [PyObj.str p.1, PyObj.pybytes p.2]) []).frames =
      .ok (([116],
        Headers.mk (setKv [] contentTypeKey
          (PyObj.arr ([([97], [1]), ([98], [2])].map fun p => PyObj.str p.1))),
        [([97], [1]), ([98], [2])].map fun p => (PyObj.str p.1, p.2)), []) :=
  claim4_roundtrip_ex [116] [] [([97], [1]), ([98], [2])] (by decide) (by decide)
    (by decide) (by decide)

/-- C5 counterexample: a tuple sequence mixing a proper 2-tuple with a
3-tuple is NOT rejected - `send_message_ex` succeeds (transmitting four
frames and silently dropping the 3-tuple's extra component), contradicting
the claim that any element of length other than 2 fails before transmission. -/
theorem claim5_arity_cex :
    (send_message_ex [116] []
      [[PyObj.str [97], PyObj.pybytes [1]], [PyObj.str [98], PyObj.pybytes [2], PyObj.null]]
      []).error = none ∧
    (send_message_ex [116] []
      [[PyObj.str [97], PyObj.pybytes [1]], [PyObj.str [98], PyObj.pybytes [2], PyObj.null]]
      []).frames.length = 4 :=
  ⟨rfl, rfl⟩

/-- C5 amended: `send_message_ex` raises a `ValueError` before transmitting
any frame exactly when the transposed tuple list does not have two rows: when
the tuple sequence is empty, when some tuple has fewer than 2 components, or
when every tuple has more than 2 components. (A sequence mixing 2-tuples with
longer tuples is not rejected; it is silently truncated, as the
counterexample shows.) -/
theorem claim5_arity_error (topic : UText) (headers : List (UText × PyObj))
    (msg_tuples : List (List PyObj)) (kwargs : List (UText × Nat))
    (h : msg_tuples = [] ∨ (∃ t ∈ msg_tuples, t.length < 2) ∨
      (∀ t ∈ msg_tuples, 3 ≤ t.length)) :
    send_message_ex topic headers msg_tuples kwargs = ⟨[], some PyError.valueError⟩ := by
  have hlen : zipStarLen msg_tuples ≠ 2 := by
    rcases h with rfl | ⟨t, ht, hlt⟩ | hall
    · simp [zipStarLen]
    · have := zipStarLen_le msg_tuples t ht
      omega
    · cases msg_tuples with
      | nil => simp [zipStarLen]
      | cons a tas =>
        have := zipStarLen_ge (a :: tas) (by simp) hall
        omega
  have hzs : (zipStar msg_tuples).length ≠ 2 := by
    rw [zipStar_length]
    exact hlen
  simp only [send_message_ex]
  split
  · rename_i cts parts heq
    exact absurd (by rw [heq]; rfl) hzs
  · rfl

/-- Witness for C5 at a single 1-tuple. -/
theorem claim5_arity_error_witness :
    (([[PyObj.null]] : List (List PyObj)) = [] ∨ (∃ t ∈ [[PyObj.null]], t.length < 2) ∨
      (∀ t ∈ ([[PyObj.null]] : List (List PyObj)), 3 ≤ t.length)) ∧
    send_message_ex [116] [] [[PyObj.null]] [] = ⟨[], some PyError.valueError⟩ :=
  ⟨Or.inr (Or.inl ⟨[PyObj.null], by simp, by simp⟩),
    claim5_arity_error [116] [] [[PyObj.null]] []
      (Or.inr (Or.inl ⟨[PyObj.null], by simp, by simp⟩))⟩

/-- C6: unrecognized keyword arguments - for every call to `send_message`
supplying a keyword other than `flags` (directly, or through
`send_message_ex` whenever the tuple unpacking succeeds and the call is
delegated), a `TypeError` is raised and no frame at all is transmitted. -/
theorem claim6_unknown_kwarg (topic : UText) (headers : List (UText × PyObj))
    (msg_parts : List PyObj) (msg_tuples : List (List PyObj))
    (kwargs : List (UText × Nat)) (k : UText) (v : Nat)
    (hk : (k, v) ∈ kwargs) (hne : k ≠ flagsKey) :
    send_message topic headers msg_parts kwargs = ⟨[], some PyError.dataTypeError⟩ ∧
    (∀ cts parts, zipStar msg_tuples = [cts, parts] →
      send_message_ex topic headers msg_tuples kwargs = ⟨[], some PyError.dataTypeError⟩) := by
  have hpop := popKw_extra kwargs k v hk hne
  have key : ∀ (d : List (UText × PyObj)) (mp : List PyObj),
      send_message topic d mp kwargs = ⟨[], some PyError.dataTypeError⟩ := by
    intro d mp
    obtain ⟨a, as, ha⟩ : ∃ a as, (popKw kwargs flagsKey 0).2 = a :: as := by
      rcases hcase : (popKw kwargs flagsKey 0).2 with _ | ⟨a, as⟩
      · exact absurd hcase hpop
      · exact ⟨a, as, rfl⟩
    simp [send_message, ha]
  exact ⟨key headers msg_parts, fun cts parts hz => by simp [send_message_ex, hz, key]⟩

/-- Witness for C6 at the unrecognized keyword `x`, both for a direct
`send_message` call and for a delegated `send_message_ex` call. -/
theorem claim6_unknown_kwarg_witness :
    send_message [116] [] [PyObj.pybytes [1]] [([120], 7)] =
      ⟨[], some PyError.dataTypeError⟩ ∧
    send_message_ex [116] [] [[PyObj.str [97], PyObj.pybytes [1]]] [([120], 7)] =
      ⟨[], some PyError.dataTypeError⟩ :=
  ⟨(claim6_unknown_kwarg [116] [] [PyObj.pybytes [1]] [[PyObj.str [97], PyObj.pybytes [1]]]
      [([120], 7)] [120] 7 (by decide) (by decide)).1,
    (claim6_unknown_kwarg [116] [] [PyObj.pybytes [1]] [[PyObj.str [97], PyObj.pybytes [1]]]
      [([120], 7)] [120] 7 (by decide) (by decide)).2
      [PyObj.str [97]] [PyObj.pybytes [1]] rfl⟩

/-- C7: missing headers and missing parts are normal states - `recv_message`
returns empty headers and an empty parts list when no headers frame follows
the topic, likewise for the two-frame message of topic plus empty headers
frame, and returns an empty parts list (never an error) when no frame follows
a well-formed headers frame. -/
theorem claim7_missing_defaults (tb : PyBytes) (topic : UText)
    (ht : utf8Decode tb = some topic) (rest : List Frame) :
    recv_message (⟨tb, false⟩ :: rest) = .ok ((topic, Headers.mk [], []), rest) ∧
    recv_message (⟨tb, true⟩ :: ⟨[], false⟩ :: rest) =
      .ok ((topic, Headers.mk [], []), rest) ∧
    (∀ hb htext kvs, utf8Decode hb = some htext → jsonLoads htext = some (PyObj.obj kvs) →
      recv_message (⟨tb, true⟩ :: ⟨hb, false⟩ :: rest) =
        .ok ((topic, Headers.mk kvs, []), rest)) := by
  refine ⟨?_, ?_, ?_⟩
  · simp [recv_message, recvString, recvFrame, ht, headersOfJson, bind, Except.bind, pure,
      Except.pure]
  · simp [recv_message, recvString, recvFrame, ht, utf8Decode, headersOfJson, bind,
      Except.bind, pure, Except.pure]
  · intro hb htext kvs hdec hload
    have hne : htext ≠ [] := by
      intro h0
      rw [h0] at hload
      simp [jsonLoads, parseVal] at hload
    simp [recv_message, recvString, recvFrame, ht, hdec, hne, hload, headersOfJson, bind,
      Except.bind, pure, Except.pure]

/-- Witness for C7: a topic-only message, a topic plus empty headers frame,
and a topic plus one-entry headers frame with no parts. -/
theorem claim7_missing_defaults_witness :
    recv_message [Frame.mk [116] false] = .ok (([116], Headers.mk [], []), []) ∧
    recv_message [Frame.mk [116] true, Frame.mk [] false] =
      .ok (([116], Headers.mk [], []), []) ∧
    recv_message [Frame.mk [116] true,
      Frame.mk (utf8Encode (encVal (PyObj.obj [([107], PyObj.num 1)]))) false] =
      .ok (([116], Headers.mk [([107], PyObj.num 1)], []), []) :=
  ⟨(claim7_missing_defaults [116] [116] rfl []).1,
    (claim7_missing_defaults [116] [116] rfl []).2.1,
    (claim7_missing_defaults [116] [116] rfl []).2.2
      (utf8Encode (encVal (PyObj.obj [([107], PyObj.num 1)])))
      (encVal (PyObj.obj [([107], PyObj.num 1)])) [([107], PyObj.num 1)] rfl rfl⟩

/-- C8: a malformed headers frame raises - on a frame sequence whose headers
frame bytes are not valid UTF-8, or decode to nonempty text that is not valid
structured text, `recv_message` fails with a decode error instead of
returning defaulted or garbage headers. -/
theorem claim8_malformed_headers (tb : PyBytes) (topic : UText)
    (ht : utf8Decode tb = some topic) (hb : PyBytes) (m : Bool) (rest : List Frame)
    (hbad : utf8Decode hb = none ∨
      ∃ t, utf8Decode hb = some t ∧ t ≠ [] ∧ jsonLoads t = none) :
    recv_message (⟨tb, true⟩ :: ⟨hb, m⟩ :: rest) = .error PyError.decodeError := by
  rcases hbad with hnone | ⟨t, hsome, htne, hjs⟩
  · simp [recv_message, recvString, recvFrame, ht, hnone, bind, Except.bind, pure,
      Except.pure]
  · simp [recv_message, recvString, recvFrame, ht, hsome, htne, hjs, bind, Except.bind,
      pure, Except.pure]

/-- Witness for C8 at a headers frame holding the single byte 128, a stray
UTF-8 continuation byte. -/
theorem claim8_malformed_headers_witness :
    recv_message [Frame.mk [116] true, Frame.mk [128] false] =
      .error PyError.decodeError :=
  claim8_malformed_headers [116] [116] rfl [128] false [] (Or.inl rfl)

/-- C9: extended-form receive truncation - whenever `recv_message` succeeds
and the `Content-Type` value is iterable, `recv_message_ex` pairs the
content-type sequence with the parts positionally, truncating to the shorter
length; and on any message whose headers carry no `Content-Type` entry the
paired parts list is empty even when parts were received. -/
theorem claim9_zip_truncation (wire w : List Frame) (t : UText) (hdrs : Headers)
    (msg : List PyBytes) (cts : List PyObj) (wire2 w2 : List Frame) (t2 : UText)
    (hdrs2 : Headers) (msg2 : List PyBytes)
    (h1 : recv_message wire = .ok ((t, hdrs, msg), w))
    (h2 : pyIter (hdrs.get contentTypeKey) = .ok cts)
    (h3 : recv_message wire2 = .ok ((t2, hdrs2, msg2), w2))
    (h4 : hdrs2.find? contentTypeKey = none) :
    recv_message_ex wire = .ok ((t, hdrs, List.zip cts msg), w) ∧
    (List.zip cts msg).length = min cts.length msg.length ∧
    recv_message_ex wire2 = .ok ((t2, hdrs2, []), w2) := by
  refine ⟨?_, List.length_zip cts msg, ?_⟩
  · simp [recv_message_ex, h1, h2, bind, Except.bind, pure, Except.pure]
  · have hget2 : hdrs2.get contentTypeKey = PyObj.arr [] := by
      simp [Headers.get, h4]
    have h5 : pyIter (hdrs2.get contentTypeKey) = .ok [] := by
      rw [hget2]
      rfl
    simp [recv_message_ex, h3, h5, bind, Except.bind, pure, Except.pure]

/-- Witness for C9: one message whose `Content-Type` holds one entry against
two received parts (truncation to one pair), and one message with no
`Content-Type` entry but one received part (empty paired list). -/
theorem claim9_zip_truncation_witness :
    recv_message_ex [Frame.mk [116] true,
      Frame.mk (utf8Encode (encVal (PyObj.obj
        [(contentTypeKey, PyObj.arr [PyObj.str [97]])]))) true,
      Frame.mk [1] true, Frame.mk [2] false] =
      .ok (([116], Headers.mk [(contentTypeKey, PyObj.arr [PyObj.str [97]])],
        [(PyObj.str [97], [1])]), []) ∧
    ([(PyObj.str [97], ([1] : PyBytes))].length = min 1 2) ∧
    recv_message_ex [Frame.mk [117] true,
      Frame.mk (utf8Encode (encVal (PyObj.obj []))) true, Frame.mk [9] false] =
      .ok (([117], Headers.mk [], []), []) :=
  claim9_zip_truncation _ [] [116]
    (Headers.mk [(contentTypeKey, PyObj.arr [PyObj.str [97]])]) [[1], [2]]
    [PyObj.str [97]] _ [] [117] (Headers.mk []) [[9]] rfl rfl rfl rfl

/-- C10 counterexample: extended receive is not a pure refinement of plain
receive - on a message whose `Content-Type` header decodes to the integer 5,
`recv_message` succeeds but `recv_message_ex` raises a `TypeError` (the value
is not iterable), returning no topic or headers at all. -/
theorem claim10_refinement_cex :
    (recv_message [Frame.mk [116] true,
      Frame.mk (utf8Encode (encVal (PyObj.obj [(contentTypeKey, PyObj.num 5)]))) false]).isOk =
      true ∧
    recv_message_ex [Frame.mk [116] true,
      Frame.mk (utf8Encode (encVal (PyObj.obj [(contentTypeKey, PyObj.num 5)]))) false] =
      .error PyError.dataTypeError :=
  ⟨rfl, rfl⟩

/-- C10 amended: on every frame sequence where `recv_message` succeeds AND
the `Content-Type` header value is iterable (sequences, strings, mappings,
byte strings, or the defaulted empty sequence when absent),
`recv_message_ex` succeeds with exactly the same topic and the same headers
object - the `Content-Type` entry is read but left in place unmodified - and
only the parts component is replaced by the positional zip of the
content-type sequence with the plain parts. -/
theorem claim10_refinement (wire w : List Frame) (t : UText) (hdrs : Headers)
    (msg : List PyBytes) (cts : List PyObj)
    (h1 : recv_message wire = .ok ((t, hdrs, msg), w))
    (h2 : pyIter (hdrs.get contentTypeKey) = .ok cts) :
    recv_message_ex wire = .ok ((t, hdrs, List.zip cts msg), w) ∧
    (recv_message_ex wire).toOption.map (fun r => r.1.1) = some t ∧
    (recv_message_ex wire).toOption.map (fun r => r.1.2.1) = some hdrs := by
  have hx : recv_message_ex wire = .ok ((t, hdrs, List.zip cts msg), w) := by
    simp [recv_message_ex, h1, h2, bind, Except.bind, pure, Except.pure]
  refine ⟨hx, ?_, ?_⟩
  · simp [hx, Except.toOption]
  · simp [hx, Except.toOption]

/-- Witness for C10 at a one-entry `Content-Type` with one matching part. -/
theorem claim10_refinement_witness :
    recv_message_ex [Frame.mk [116] true,
      Frame.mk (utf8Encode (encVal (PyObj.obj
        [(contentTypeKey, PyObj.arr [PyObj.str [97]])]))) true, Frame.mk [9] false] =
      .ok (([116], Headers.mk [(contentTypeKey, PyObj.arr [PyObj.str [97]])],
        [(PyObj.str [97], [9])]), []) ∧
    (recv_message_ex [Frame.mk [116] true,
      Frame.mk (utf8Encode (encVal (PyObj.obj
        [(contentTypeKey, PyObj.arr [PyObj.str [97]])]))) true,
      Frame.mk [9] false]).toOption.map (fun r => r.1.1) = some [116] ∧
    (recv_message_ex [Frame.mk [116] true,
      Frame.mk (utf8Encode (encVal (PyObj.obj
        [(contentTypeKey, PyObj.arr [PyObj.str [97]])]))) true,
      Frame.mk [9] false]).toOption.map (fun r => r.1.2.1) =
      some (Headers.mk [(contentTypeKey, PyObj.arr [PyObj.str [97]])]) :=
  claim10_refinement _ [] [116]
    (Headers.mk [(contentTypeKey, PyObj.arr [PyObj.str [97]])]) [[9]]
    [PyObj.str [97]] rfl rfl
